import Mathlib

/-!
Verification of the CBOR cross-implementation round-trip harness
(file cbor_bytes.py of the repository under study).

The harness drives values through two CBOR codecs: a foreign one (node
with the cbor-x package, reached through subprocess calls) and a
reference one (the cbor2 library).  The Python file under study contains
the pure harness logic (tag scanning, verdict computation, result-token
parsing, dispatch of Python values to foreign-literal syntax, tolerant
date comparison) plus calls into those two external codecs.

Embedding conventions:
* Python runtime values that flow through the harness are modelled by
  the inductive type PyVal below (None, bool, int, float, str, bytes,
  list, tuple, set, dict, datetime, date, and the cbor2 CBORTag wrapper).
* The external collaborators (the node subprocess, cbor2.loads or
  cbor2.dumps) are modelled as oracle functions supplied as parameters:
  the harness logic under verification is translated from the source,
  the oracles are free.
* Python exceptions are modelled with Except String: a raised exception
  is an error value, the try and except block of the orchestrator is the
  match that turns an error into a False verdict.
* Python builtins used by the source (structural equality, repr, str,
  string join) are modelled by the pyEq, pyRepr, pyStr and joinSep
  functions below; they model CPython semantics for exactly the value
  domain of PyVal, including the numeric tower (bool below int below
  float) and the NaN inequality rule.
* Machine floats are modelled exactly as far as the harness observes
  them: equality and the NaN, plus and minus infinity special cases.
  Rationals stand for the finite doubles; no float arithmetic is done by
  the harness logic itself.
* datetimes are modelled by their naive wall-clock reading in
  microseconds (the resolution of Python datetimes) together with an
  optional utcoffset in microseconds; None models a naive datetime.
-/

/-- Model of a Python float as the harness observes it: NaN, the two
infinities, or a finite value (rationals stand for finite doubles). -/
inductive PyFloat where
  | nan
  | inf
  | ninf
  | val (q : ℚ)
deriving DecidableEq

/-- Model of a Python datetime: the naive wall-clock reading of its
fields in microseconds since an arbitrary fixed epoch, plus an optional
utcoffset in microseconds (none models a timezone-naive datetime). -/
structure PyDatetime where
  wallMicros : Int
  tzOffsetMicros : Option Int
deriving DecidableEq

/-- Model of the Python runtime values that flow through the harness.
The tag constructor models cbor2.CBORTag; its first field is the tag
slot, which normally holds an integer but (as the source exercises in
tag_hook) can hold any object, so it is a full PyVal. -/
inductive PyVal where
  | none
  | bool (b : Bool)
  | int (n : Int)
  | float (f : PyFloat)
  | str (s : String)
  | bytes (bs : List Nat)
  | list (xs : List PyVal)
  | tuple (xs : List PyVal)
  | set (xs : List PyVal)
  | dict (entries : List (PyVal × PyVal))
  | datetime (d : PyDatetime)
  | date (ordinal : Int)
  | tag (t : PyVal) (v : PyVal)

/-- Model of str.join from Python: joinSep sep l concatenates the
members of l with sep between consecutive members. -/
def joinSep : String → List String → String
  | _, [] => ""
  | _, [a] => a
  | sep, a :: rest => a ++ sep ++ joinSep sep rest

mutual

/-- Model of the Python repr builtin on PyVal values.  Only the
recursive shape matters to the theorems below (repr text feeds the
diagnostic path strings of the tag verifier); the exact characters for
leaves are a faithful but simplified rendering. -/
def pyRepr : PyVal → String
  | .none => "None"
  | .bool b => if b then "True" else "False"
  | .int n => toString n
  | .float .nan => "nan"
  | .float .inf => "inf"
  | .float .ninf => "-inf"
  | .float (.val q) => toString q
  | .str s => "\x27" ++ s ++ "\x27"
  | .bytes bs => "b\x27" ++ joinSep " " (bs.map toString) ++ "\x27"
  | .list xs => "[" ++ joinSep ", " (pyReprItems xs) ++ "]"
  | .tuple xs => "(" ++ joinSep ", " (pyReprItems xs) ++ ")"
  | .set xs => "\x7b" ++ joinSep ", " (pyReprItems xs) ++ "\x7d"
  | .dict es => "\x7b" ++ joinSep ", " (pyReprPairs es) ++ "\x7d"
  | .datetime d => "datetime(" ++ toString d.wallMicros ++ ")"
  | .date o => "date(" ++ toString o ++ ")"
  | .tag t v => "CBORTag(" ++ pyRepr t ++ ", " ++ pyRepr v ++ ")"

/-- repr of each member of a list, in order. -/
def pyReprItems : List PyVal → List String
  | [] => []
  | x :: rest => pyRepr x :: pyReprItems rest

/-- repr of each dict entry rendered as key: value, in order. -/
def pyReprPairs : List (PyVal × PyVal) → List String
  | [] => []
  | (k, v) :: rest => (pyRepr k ++ ": " ++ pyRepr v) :: pyReprPairs rest

end

/-- Model of the Python str builtin: identical to repr except on str
values, which print unquoted. -/
def pyStr (v : PyVal) : String :=
  match v with
  | .str s => s
  | _ => pyRepr v

mutual

/-- Translated from has_cbor_tags of cbor_bytes.py: recursively check
whether an object contains CBORTag objects and return the list of
diagnostic strings (one per tag found), each carrying the path where the
tag sits.  A CBORTag node is reported and not entered; dicts are walked
over keys and values; lists, tuples and sets are walked over members
with positional paths; every other value yields no finding. -/
def has_cbor_tags (obj : PyVal) (path : String) : List String :=
  match obj with
  | .tag t v => [path ++ ": CBORTag(" ++ pyStr t ++ ", " ++ pyStr v ++ ")"]
  | .dict es => hctPairs es path
  | .list xs => hctSeq xs path 0
  | .tuple xs => hctSeq xs path 0
  | .set xs => hctSet xs path 0
  | _ => []

/-- The dict loop of has_cbor_tags: scan each key then each value. -/
def hctPairs : List (PyVal × PyVal) → String → List String
  | [], _ => []
  | (key, value) :: rest, path =>
      has_cbor_tags key (path ++ ".key[" ++ pyRepr key ++ "]")
        ++ has_cbor_tags value (path ++ "[" ++ pyRepr key ++ "]")
        ++ hctPairs rest path

/-- The list and tuple loop of has_cbor_tags: scan members with bracket
index paths. -/
def hctSeq : List PyVal → String → Nat → List String
  | [], _, _ => []
  | x :: rest, path, i =>
      has_cbor_tags x (path ++ "[" ++ toString i ++ "]") ++ hctSeq rest path (i + 1)

/-- The set loop of has_cbor_tags: scan members with .set index paths. -/
def hctSet : List PyVal → String → Nat → List String
  | [], _, _ => []
  | x :: rest, path, i =>
      has_cbor_tags x (path ++ ".set[" ++ toString i ++ "]") ++ hctSet rest path (i + 1)

end

mutual

/-- Specification-side predicate, independent of the walker above: the
value contains a CBORTag somewhere, at any depth, descending through
every constructor including the two fields of a tag itself. -/
def containsTag : PyVal → Bool
  | .tag _ _ => true
  | .dict es => ctPairs es
  | .list xs => ctItems xs
  | .tuple xs => ctItems xs
  | .set xs => ctItems xs
  | _ => false

/-- containsTag over the members of a list. -/
def ctItems : List PyVal → Bool
  | [] => false
  | x :: rest => containsTag x || ctItems rest

/-- containsTag over the entries of a dict. -/
def ctPairs : List (PyVal × PyVal) → Bool
  | [] => false
  | (k, v) :: rest => containsTag k || containsTag v || ctPairs rest

end

mutual

/-- Number of CBORTag nodes at reportable positions of a value: a tag
node counts one and is not entered, containers are walked exactly as
has_cbor_tags walks them. -/
def walkTagCount : PyVal → Nat
  | .tag _ _ => 1
  | .dict es => wtcPairs es
  | .list xs => wtcItems xs
  | .tuple xs => wtcItems xs
  | .set xs => wtcItems xs
  | _ => 0

/-- walkTagCount over the members of a list. -/
def wtcItems : List PyVal → Nat
  | [] => 0
  | x :: rest => walkTagCount x + wtcItems rest

/-- walkTagCount over the entries of a dict. -/
def wtcPairs : List (PyVal × PyVal) → Nat
  | [] => 0
  | (k, v) :: rest => walkTagCount k + walkTagCount v + wtcPairs rest

end

/-- Python float equality against a rational (the int and bool side of
the numeric tower): NaN and the infinities equal no rational. -/
def floatEqRat : PyFloat → ℚ → Bool
  | .val q, r => q == r
  | _, _ => false

/-- Python float equality between two floats: NaN equals nothing,
including itself; infinities equal themselves; finite values by value. -/
def floatEqF : PyFloat → PyFloat → Bool
  | .nan, _ => false
  | _, .nan => false
  | .inf, .inf => true
  | .ninf, .ninf => true
  | .val a, .val b => a == b
  | _, _ => false

/-- Python equality of two datetimes: naive pairs compare wall clocks,
aware pairs compare instants, a naive and an aware datetime are unequal. -/
def dtEq (a b : PyDatetime) : Bool :=
  match a.tzOffsetMicros, b.tzOffsetMicros with
  | Option.none, Option.none => a.wallMicros == b.wallMicros
  | some x, some y => (a.wallMicros - x) == (b.wallMicros - y)
  | _, _ => false

mutual

/-- Model of the Python equality builtin (the == operator) on PyVal:
numeric values compare across bool, int and float with NaN unequal to
everything; sequences compare pointwise; sets by mutual membership;
dicts by size and per-key value equality; every cross-type pair is
unequal.  The identity shortcut CPython applies inside containers is
not modelled: the harness only ever compares values rebuilt by two
independent decoders, which share no objects. -/
def pyEq : PyVal → PyVal → Bool
  | .none, .none => true
  | .bool x, .bool y => x == y
  | .bool x, .int n => (if x then (1 : Int) else 0) == n
  | .bool x, .float f => floatEqRat f (if x then 1 else 0)
  | .int m, .bool y => m == (if y then (1 : Int) else 0)
  | .int m, .int n => m == n
  | .int m, .float f => floatEqRat f (m : ℚ)
  | .float f, .bool y => floatEqRat f (if y then 1 else 0)
  | .float f, .int n => floatEqRat f (n : ℚ)
  | .float f, .float g => floatEqF f g
  | .str s, .str t => s == t
  | .bytes xs, .bytes ys => xs == ys
  | .list xs, .list ys => pyEqItems xs ys
  | .tuple xs, .tuple ys => pyEqItems xs ys
  | .set xs, .set ys => pySetSub xs ys && pySetSub ys xs
  | .dict es, .dict fs => (es.length == fs.length) && pyDictLe es fs
  | .datetime d1, .datetime d2 => dtEq d1 d2
  | .date o1, .date o2 => o1 == o2
  | .tag t1 v1, .tag t2 v2 => pyEq t1 t2 && pyEq v1 v2
  | _, _ => false
termination_by a b => sizeOf a + sizeOf b
decreasing_by all_goals (simp_wf <;> omega)

/-- Pointwise Python equality of two lists. -/
def pyEqItems : List PyVal → List PyVal → Bool
  | [], [] => true
  | x :: xs, y :: ys => pyEq x y && pyEqItems xs ys
  | _, _ => false
termination_by xs ys => sizeOf xs + sizeOf ys
decreasing_by all_goals (simp_wf <;> omega)

/-- Membership up to Python equality. -/
def pyMemB : PyVal → List PyVal → Bool
  | _, [] => false
  | x, y :: ys => pyEq x y || pyMemB x ys
termination_by x l => sizeOf x + sizeOf l
decreasing_by all_goals (simp_wf <;> omega)

/-- Every member of the first list has a Python-equal member in the
second list. -/
def pySetSub : List PyVal → List PyVal → Bool
  | [], _ => true
  | x :: xs, ys => pyMemB x ys && pySetSub xs ys
termination_by xs ys => sizeOf xs + sizeOf ys
decreasing_by all_goals (simp_wf <;> omega)

/-- The entry (k, v) has an entry with a Python-equal key and a
Python-equal value in the list. -/
def pyPairMem : PyVal → PyVal → List (PyVal × PyVal) → Bool
  | _, _, [] => false
  | k, v, (k2, v2) :: rest => (pyEq k k2 && pyEq v v2) || pyPairMem k v rest
termination_by k v l => sizeOf k + sizeOf v + sizeOf l
decreasing_by all_goals (simp_wf <;> omega)

/-- Every entry of the first dict is matched in the second dict. -/
def pyDictLe : List (PyVal × PyVal) → List (PyVal × PyVal) → Bool
  | [], _ => true
  | (k, v) :: rest, fs => pyPairMem k v fs && pyDictLe rest fs
termination_by es fs => sizeOf es + sizeOf fs
decreasing_by all_goals (simp_wf <;> omega)

end

/-- Model of the Python inequality operator, the comparison the
orchestrator applies to the decoded intermediate. -/
def pyNe (a b : PyVal) : Bool :=
  !(pyEq a b)

/-- Translated from tag_hook of cbor_bytes.py.  The decoder parameter
of the source is dropped (the body never reads it); the incoming
cbor2.CBORTag is passed as its two fields.  Tag 64 with a bytes payload
is unwrapped to the plain bytes; tag 64 with any other payload raises
ValueError; every other tag is rebuilt as a CBORTag whose first
argument is the whole incoming tag object, exactly as the source
writes cbor2.CBORTag(tag, tag.value). -/
def tag_hook (tagT tagV : PyVal) : Except String PyVal :=
  if pyEq tagT (.int 64) then
    match tagV with
    | .bytes _ => .ok tagV
    | _ => .error ("Tag 64 value must be bytes, got " ++ pyRepr tagV)
  else
    .ok (.tag (.tag tagT tagV) tagV)

mutual

/-- Bottom-up application of tag_hook over a decoded value tree, the
way cbor2.loads applies a tag hook while decoding: the payload of a tag
is decoded (hence hooked) before the hook sees the tag itself. -/
def applyTagHook : PyVal → Except String PyVal
  | .tag t v =>
    match applyTagHook v with
    | .error e => .error e
    | .ok v2 => tag_hook t v2
  | .list xs =>
    match athItems xs with
    | .error e => .error e
    | .ok ys => .ok (.list ys)
  | .tuple xs =>
    match athItems xs with
    | .error e => .error e
    | .ok ys => .ok (.tuple ys)
  | .set xs =>
    match athItems xs with
    | .error e => .error e
    | .ok ys => .ok (.set ys)
  | .dict es =>
    match athPairs es with
    | .error e => .error e
    | .ok fs => .ok (.dict fs)
  | leaf => .ok leaf

/-- applyTagHook over list members. -/
def athItems : List PyVal → Except String (List PyVal)
  | [] => .ok []
  | x :: rest =>
    match applyTagHook x with
    | .error e => .error e
    | .ok y =>
      match athItems rest with
      | .error e => .error e
      | .ok ys => .ok (y :: ys)

/-- applyTagHook over dict entries. -/
def athPairs : List (PyVal × PyVal) → Except String (List (PyVal × PyVal))
  | [] => .ok []
  | (k, v) :: rest =>
    match applyTagHook k with
    | .error e => .error e
    | .ok k2 =>
      match applyTagHook v with
      | .error e => .error e
      | .ok v2 =>
        match athPairs rest with
        | .error e => .error e
        | .ok fs => .ok ((k2, v2) :: fs)

end

/-- Translated from cbor_loads_with_tag64_support of cbor_bytes.py.
The byte-level CBOR parse happens inside the external cbor2 library and
is modelled by the raw oracle, which yields the decoded tree before any
tag hook runs; the source contributes the choice of tag_hook, modelled
as the bottom-up hook application. -/
def cbor_loads_with_tag64_support (raw : List Nat → Except String PyVal)
    (data : List Nat) : Except String PyVal :=
  match raw data with
  | .error e => .error e
  | .ok v => applyTagHook v

/-- Observable outcome of one node subprocess whose stdout carries raw
bytes: exit status, stdout bytes, decoded stderr text. -/
structure NodeRunBytes where
  returncode : Int
  stdoutBytes : List Nat
  stderrText : String

/-- Observable outcome of one node subprocess whose stdout carries a
decoded text token: exit status, decoded stdout text, decoded stderr
text. -/
structure NodeRun where
  returncode : Int
  stdoutText : String
  stderrText : String

/-- Translated from encode_js_code_with_cbor_x of cbor_bytes.py: the
node invocation is the external oracle run; a nonzero exit raises
RuntimeError, otherwise the stdout bytes are the CBOR encoding.  The
debug print of stderr does not affect the returned value. -/
def encode_js_code_with_cbor_x (run : String → NodeRunBytes) (js_code : String) :
    Except String (List Nat) :=
  let res := run js_code
  if res.returncode ≠ 0 then
    .error ("Node cbor-x encode failed: " ++ res.stderrText)
  else
    .ok res.stdoutBytes

/-- Model of the Python str.strip method with no argument: remove
leading and trailing whitespace. -/
def pyStrip (s : String) : String :=
  String.mk ((s.data.dropWhile Char.isWhitespace).reverse.dropWhile Char.isWhitespace).reverse

/-- Translated from decode_and_verify_js_roundtrip of cbor_bytes.py:
the node invocation is the external oracle run; a nonzero exit raises
RuntimeError; otherwise the stripped stdout token values_match maps to
True, values_differ maps to False, and anything else raises
RuntimeError.  The debug print of stderr does not affect the returned
value. -/
def decode_and_verify_js_roundtrip (run : List Nat → String → NodeRun)
    (cbor_data : List Nat) (original_js_code : String) : Except String Bool :=
  let res := run cbor_data original_js_code
  if res.returncode ≠ 0 then
    .error ("Node cbor-x decode failed: " ++ res.stderrText)
  else
    let result_str := pyStrip res.stdoutText
    if result_str = "values_match" then .ok true
    else if result_str = "values_differ" then .ok false
    else .error ("Unexpected result from JavaScript comparison: " ++ result_str)

/-- The external collaborators one round-trip test case talks to: the
node encode subprocess, cbor2.loads, cbor2.dumps, and the node
decode-and-compare subprocess. -/
structure RoundtripEnv where
  encodeRun : String → NodeRunBytes
  loads : List Nat → Except String PyVal
  dumps : PyVal → Except String (List Nat)
  decodeRun : List Nat → String → NodeRun

/-- The body of the try block of test_roundtrip_js of cbor_bytes.py,
translated statement by statement: encode the foreign literal, decode
with cbor2, abort with a False verdict when the tag scan finds
anything, abort with a False verdict on an intermediate mismatch when
no custom comparator was supplied (when one is supplied the check is
skipped and the function only prints a notice), re-encode with cbor2,
decode and compare in the foreign runtime, and turn a negative foreign
comparison into a False verdict.  An error value models an exception
escaping the corresponding statement. -/
def test_roundtrip_js_body (env : RoundtripEnv) (js_input : String)
    (python_intermediate : PyVal) (compare_fn : Option (PyVal → PyVal → Bool)) :
    Except String Bool :=
  match encode_js_code_with_cbor_x env.encodeRun js_input with
  | .error e => .error e
  | .ok js_encoded =>
    match env.loads js_encoded with
    | .error e => .error e
    | .ok python_decoded =>
      if has_cbor_tags python_decoded "root" ≠ [] then
        .ok false
      else if compare_fn.isNone && pyNe python_decoded python_intermediate then
        .ok false
      else
        match env.dumps python_decoded with
        | .error e => .error e
        | .ok python_encoded =>
          match decode_and_verify_js_roundtrip env.decodeRun python_encoded js_input with
          | .error e => .error e
          | .ok js_matches_original =>
            if !js_matches_original then .ok false else .ok true

/-- Translated from test_roundtrip_js of cbor_bytes.py: the whole body
runs inside one try block whose except clause converts any exception
into a False verdict for the case.  The test_name parameter only feeds
prints in the source and is kept for the signature. -/
def test_roundtrip_js (env : RoundtripEnv) (test_name : String) (js_input : String)
    (python_intermediate : PyVal) (compare_fn : Option (PyVal → PyVal → Bool)) : Bool :=
  match test_roundtrip_js_body env js_input python_intermediate compare_fn with
  | .ok verdict => verdict
  | .error _ => false

/-- Model of the Python str builtin on floats as the translator prints
them; the exact digits of finite values are immaterial to the theorems
below. -/
def pyFloatStr : PyFloat → String
  | .nan => "nan"
  | .inf => "inf"
  | .ninf => "-inf"
  | .val q => toString q

/-- One character of the JavaScript string escaping chain of
python_to_js_code: backslash, double quote, newline, carriage return
and tab are escaped, everything else passes through. -/
def jsEscapeChar (c : Char) : String :=
  if c = '\\' then "\\\\"
  else if c = '\x22' then "\\\x22"
  else if c = '\n' then "\\n"
  else if c = '\r' then "\\r"
  else if c = '\t' then "\\t"
  else String.singleton c

/-- The escaping chain of the str arm of python_to_js_code.  The five
sequential replace calls of the source act independently per character
because no replacement output contains a target of a later replace, so
the chain equals this character-wise map. -/
def jsEscape (s : String) : String :=
  String.join (s.data.map jsEscapeChar)

/-- The isinstance check against str used by the dict arm of
python_to_js_code. -/
def isStrVal : PyVal → Bool
  | .str _ => true
  | _ => false

/-- Model of datetime.isoformat: an injective rendering of the fields;
its exact text is immaterial to the theorems below. -/
def pyIsoformat (d : PyDatetime) : String :=
  "dt" ++ toString d.wallMicros ++
    (match d.tzOffsetMicros with
     | some x => "+" ++ toString x
     | Option.none => "")

/-- Model of date.isoformat: an injective rendering of the ordinal; its
exact text is immaterial to the theorems below. -/
def pyDateIsoformat (o : Int) : String :=
  "d" ++ toString o

mutual

/-- Translated from python_to_js_code of cbor_bytes.py.  The source
dispatches through an isinstance chain in this order: None, bool,
int or float, str, bytes, list, set, dict, datetime or date, and a
final TypeError arm.  The bool test precedes the int test, so True and
False never reach the numeric arm even though bool is a subclass of int
in Python; a tuple matches none of the tests (a Python tuple is not a
list) and a CBORTag matches none either, so both raise TypeError.  The
match below reproduces the outcome of that chain per constructor. -/
def python_to_js_code : PyVal → Except String String
  | .none => .ok "null"
  | .bool b => .ok (if b then "true" else "false")
  | .int n => .ok (toString n)
  | .float f => .ok (pyFloatStr f)
  | .str s => .ok ("\x22" ++ jsEscape s ++ "\x22")
  | .bytes bs => .ok ("Buffer.from([" ++ joinSep ", " (bs.map toString) ++ "])")
  | .list xs =>
    match pjcItems xs with
    | .error e => .error e
    | .ok items => .ok ("[" ++ joinSep ", " items ++ "]")
  | .set xs =>
    match pjcItems xs with
    | .error e => .error e
    | .ok items => .ok ("new Set([" ++ joinSep ", " items ++ "])")
  | .dict es =>
    if es.all (fun kv => isStrVal kv.1) then
      match pjcObjEntries es with
      | .error e => .error e
      | .ok items => .ok ("\x7b" ++ joinSep ", " items ++ "\x7d")
    else
      match pjcMapEntries es with
      | .error e => .error e
      | .ok items => .ok ("new Map([" ++ joinSep ", " items ++ "])")
  | .datetime d => .ok ("new Date(\x22" ++ pyIsoformat d ++ "\x22)")
  | .date o => .ok ("new Date(\x22" ++ pyDateIsoformat o ++ "\x22)")
  | .tuple _ => .error "Cannot convert tuple to JavaScript code"
  | .tag _ _ => .error "Cannot convert CBORTag to JavaScript code"

/-- The list and set comprehension of python_to_js_code: render every
member, propagating the first exception. -/
def pjcItems : List PyVal → Except String (List String)
  | [] => .ok []
  | x :: rest =>
    match python_to_js_code x with
    | .error e => .error e
    | .ok s =>
      match pjcItems rest with
      | .error e => .error e
      | .ok items => .ok (s :: items)

/-- The all-string-keys dict comprehension of python_to_js_code: each
entry renders as the quoted key text (inlined by str, not by the
translator, hence unescaped) followed by the translated value. -/
def pjcObjEntries : List (PyVal × PyVal) → Except String (List String)
  | [] => .ok []
  | (k, v) :: rest =>
    match python_to_js_code v with
    | .error e => .error e
    | .ok vs =>
      match pjcObjEntries rest with
      | .error e => .error e
      | .ok items => .ok (("\x22" ++ pyStr k ++ "\x22: " ++ vs) :: items)

/-- The Map-building dict comprehension of python_to_js_code: each
entry renders key and value through the translator as a two-member
array literal. -/
def pjcMapEntries : List (PyVal × PyVal) → Except String (List String)
  | [] => .ok []
  | (k, v) :: rest =>
    match python_to_js_code k with
    | .error e => .error e
    | .ok ks =>
      match python_to_js_code v with
      | .error e => .error e
      | .ok vs =>
        match pjcMapEntries rest with
        | .error e => .error e
        | .ok items => .ok (("[" ++ ks ++ ", " ++ vs ++ "]") :: items)

end

/-- Subtraction of two datetimes as Python performs it, in
microseconds: defined when both are naive (wall-clock difference) or
both aware (instant difference); a mixed pair raises TypeError, which
the none value models. -/
def dtSubMicros (a b : PyDatetime) : Option Int :=
  match a.tzOffsetMicros, b.tzOffsetMicros with
  | Option.none, Option.none => some (a.wallMicros - b.wallMicros)
  | some x, some y => some ((a.wallMicros - x) - (b.wallMicros - y))
  | _, _ => Option.none

/-- Translated from compare_dates of cbor_bytes.py: when both operands
are datetimes and exactly one carries a timezone, that one has its
tzinfo replaced by None (its wall-clock fields are kept, the source
calls replace with tzinfo None, which performs no UTC conversion); the
verdict is that the absolute difference is under one second, which at
datetime resolution is under one million microseconds.  Any other
operand pair falls through to plain Python equality.  The mixed
naive and aware subtraction is unreachable after the normalization;
the model returns False there. -/
def compare_dates (original result : PyVal) : Bool :=
  match original, result with
  | .datetime o, .datetime r =>
    let p :=
      if o.tzOffsetMicros.isNone && r.tzOffsetMicros.isSome then
        (o, { r with tzOffsetMicros := Option.none })
      else if o.tzOffsetMicros.isSome && r.tzOffsetMicros.isNone then
        ({ o with tzOffsetMicros := Option.none }, r)
      else (o, r)
    match dtSubMicros p.1 p.2 with
    | some diff => decide (diff.natAbs < 1000000)
    | Option.none => false
  | a, b => pyEq a b

/-- Stated from the words of the specification, for comparison with the
source function: when exactly one member is timezone-aware, that member
is first converted to its naive UTC wall-clock form (wall reading minus
utcoffset); the verdict is that the absolute elapsed difference is
under one second. -/
def compare_dates_spec (o r : PyDatetime) : Bool :=
  let toNaiveUtc := fun (d : PyDatetime) =>
    match d.tzOffsetMicros with
    | some x => ({ wallMicros := d.wallMicros - x, tzOffsetMicros := Option.none } : PyDatetime)
    | Option.none => d
  let p :=
    if o.tzOffsetMicros.isNone && r.tzOffsetMicros.isSome then (o, toNaiveUtc r)
    else if o.tzOffsetMicros.isSome && r.tzOffsetMicros.isNone then (toNaiveUtc o, r)
    else (o, r)
  match dtSubMicros p.1 p.2 with
  | some diff => decide (diff.natAbs < 1000000)
  | Option.none => false

/-- The difference compare_dates effectively thresholds, in
microseconds: the instant difference when both datetimes are aware, and
the plain wall-clock difference otherwise (for a mixed pair the tzinfo
of the aware member is dropped without UTC conversion). -/
def dtNormDiff (o r : PyDatetime) : Int :=
  match o.tzOffsetMicros, r.tzOffsetMicros with
  | some x, some y => (o.wallMicros - x) - (r.wallMicros - y)
  | _, _ => o.wallMicros - r.wallMicros

/-- Occurrence of a value inside another through the container shapes
the translator recurses into: list members, set members, dict values
and dict keys. -/
inductive OccursIn : PyVal → PyVal → Prop
  | refl (v : PyVal) : OccursIn v v
  | listMem {v x : PyVal} {xs : List PyVal} :
      OccursIn v x → x ∈ xs → OccursIn v (.list xs)
  | setMem {v x : PyVal} {xs : List PyVal} :
      OccursIn v x → x ∈ xs → OccursIn v (.set xs)
  | dictVal {v k w : PyVal} {es : List (PyVal × PyVal)} :
      OccursIn v w → (k, w) ∈ es → OccursIn v (.dict es)
  | dictKey {v k w : PyVal} {es : List (PyVal × PyVal)} :
      OccursIn v k → (k, w) ∈ es → OccursIn v (.dict es)

/-- The token t appears contiguously inside the string s. -/
def Seg (t s : String) : Prop :=
  ∃ u v, s = u ++ t ++ v

theorem seg_self (t : String) : Seg t t := by
  refine ⟨"", "", ?_⟩
  simp [String.empty_append, String.append_empty]

theorem seg_left (a : String) {t s : String} (h : Seg t s) : Seg t (a ++ s) := by
  obtain ⟨u, v, rfl⟩ := h
  exact ⟨a ++ u, v, by simp [String.append_assoc]⟩

theorem seg_right (a : String) {t s : String} (h : Seg t s) : Seg t (s ++ a) := by
  obtain ⟨u, v, rfl⟩ := h
  exact ⟨u, v ++ a, by simp [String.append_assoc]⟩

theorem seg_trans {t s r : String} (h1 : Seg t s) (h2 : Seg s r) : Seg t r := by
  obtain ⟨u, v, rfl⟩ := h1
  obtain ⟨x, y, rfl⟩ := h2
  exact ⟨x ++ u, v ++ y, by simp [String.append_assoc]⟩

theorem seg_join (sep t : String) : ∀ items : List String, t ∈ items → Seg t (joinSep sep items)
  | [a], h => by
    rcases List.mem_singleton.mp h with rfl
    simpa [joinSep] using seg_self t
  | a :: b :: rest, h => by
    rcases List.mem_cons.mp h with rfl | h2
    · simpa [joinSep] using seg_right (joinSep sep (b :: rest)) (seg_right sep (seg_self t))
    · simpa [joinSep] using seg_left (a ++ sep) (seg_join sep t (b :: rest) h2)

mutual

theorem hct_ne (obj : PyVal) (path : String) :
    has_cbor_tags obj path ≠ [] ↔ containsTag obj = true := by
  cases obj with
  | tag t v => simp [has_cbor_tags, containsTag]
  | dict es => simpa [has_cbor_tags, containsTag] using hctPairs_ne es path
  | list xs => simpa [has_cbor_tags, containsTag] using hctSeq_ne xs path 0
  | tuple xs => simpa [has_cbor_tags, containsTag] using hctSeq_ne xs path 0
  | set xs => simpa [has_cbor_tags, containsTag] using hctSet_ne xs path 0
  | none => simp [has_cbor_tags, containsTag]
  | bool b => simp [has_cbor_tags, containsTag]
  | int n => simp [has_cbor_tags, containsTag]
  | float f => simp [has_cbor_tags, containsTag]
  | str s => simp [has_cbor_tags, containsTag]
  | bytes bs => simp [has_cbor_tags, containsTag]
  | datetime d => simp [has_cbor_tags, containsTag]
  | date o => simp [has_cbor_tags, containsTag]

theorem hctPairs_ne (es : List (PyVal × PyVal)) (path : String) :
    hctPairs es path ≠ [] ↔ ctPairs es = true := by
  cases es with
  | nil => simp [hctPairs, ctPairs]
  | cons kv rest =>
    obtain ⟨k, v⟩ := kv
    have hk := hct_ne k (path ++ ".key[" ++ pyRepr k ++ "]")
    have hv := hct_ne v (path ++ "[" ++ pyRepr k ++ "]")
    have hr := hctPairs_ne rest path
    simp only [hctPairs, ctPairs, ne_eq, List.append_eq_nil, not_and, Bool.or_eq_true] at *
    tauto

theorem hctSeq_ne (xs : List PyVal) (path : String) (i : Nat) :
    hctSeq xs path i ≠ [] ↔ ctItems xs = true := by
  cases xs with
  | nil => simp [hctSeq, ctItems]
  | cons x rest =>
    have hx := hct_ne x (path ++ "[" ++ toString i ++ "]")
    have hr := hctSeq_ne rest path (i + 1)
    simp only [hctSeq, ctItems, ne_eq, List.append_eq_nil, not_and, Bool.or_eq_true] at *
    tauto

theorem hctSet_ne (xs : List PyVal) (path : String) (i : Nat) :
    hctSet xs path i ≠ [] ↔ ctItems xs = true := by
  cases xs with
  | nil => simp [hctSet, ctItems]
  | cons x rest =>
    have hx := hct_ne x (path ++ ".set[" ++ toString i ++ "]")
    have hr := hctSet_ne rest path (i + 1)
    simp only [hctSet, ctItems, ne_eq, List.append_eq_nil, not_and, Bool.or_eq_true] at *
    tauto

end

mutual

theorem hct_len (obj : PyVal) (path : String) :
    (has_cbor_tags obj path).length = walkTagCount obj := by
  cases obj with
  | tag t v => simp [has_cbor_tags, walkTagCount]
  | dict es => simpa [has_cbor_tags, walkTagCount] using hctPairs_len es path
  | list xs => simpa [has_cbor_tags, walkTagCount] using hctSeq_len xs path 0
  | tuple xs => simpa [has_cbor_tags, walkTagCount] using hctSeq_len xs path 0
  | set xs => simpa [has_cbor_tags, walkTagCount] using hctSet_len xs path 0
  | none => simp [has_cbor_tags, walkTagCount]
  | bool b => simp [has_cbor_tags, walkTagCount]
  | int n => simp [has_cbor_tags, walkTagCount]
  | float f => simp [has_cbor_tags, walkTagCount]
  | str s => simp [has_cbor_tags, walkTagCount]
  | bytes bs => simp [has_cbor_tags, walkTagCount]
  | datetime d => simp [has_cbor_tags, walkTagCount]
  | date o => simp [has_cbor_tags, walkTagCount]

theorem hctPairs_len (es : List (PyVal × PyVal)) (path : String) :
    (hctPairs es path).length = wtcPairs es := by
  cases es with
  | nil => simp [hctPairs, wtcPairs]
  | cons kv rest =>
    obtain ⟨k, v⟩ := kv
    have hk := hct_len k (path ++ ".key[" ++ pyRepr k ++ "]")
    have hv := hct_len v (path ++ "[" ++ pyRepr k ++ "]")
    have hr := hctPairs_len rest path
    simp only [hctPairs, wtcPairs, List.length_append]
    omega

theorem hctSeq_len (xs : List PyVal) (path : String) (i : Nat) :
    (hctSeq xs path i).length = wtcItems xs := by
  cases xs with
  | nil => simp [hctSeq, wtcItems]
  | cons x rest =>
    have hx := hct_len x (path ++ "[" ++ toString i ++ "]")
    have hr := hctSeq_len rest path (i + 1)
    simp only [hctSeq, wtcItems, List.length_append]
    omega

theorem hctSet_len (xs : List PyVal) (path : String) (i : Nat) :
    (hctSet xs path i).length = wtcItems xs := by
  cases xs with
  | nil => simp [hctSet, wtcItems]
  | cons x rest =>
    have hx := hct_len x (path ++ ".set[" ++ toString i ++ "]")
    have hr := hctSet_len rest path (i + 1)
    simp only [hctSet, wtcItems, List.length_append]
    omega

end

mutual

theorem hct_path (obj : PyVal) (path : String) :
    ∀ s ∈ has_cbor_tags obj path, ∃ r, s = path ++ r := by
  cases obj with
  | tag t v =>
    intro s hs
    simp only [has_cbor_tags, List.mem_singleton] at hs
    subst hs
    exact ⟨": CBORTag(" ++ pyStr t ++ ", " ++ pyStr v ++ ")", by simp [String.append_assoc]⟩
  | dict es => simpa [has_cbor_tags] using hctPairs_path es path
  | list xs => simpa [has_cbor_tags] using hctSeq_path xs path 0
  | tuple xs => simpa [has_cbor_tags] using hctSeq_path xs path 0
  | set xs => simpa [has_cbor_tags] using hctSet_path xs path 0
  | none => simp [has_cbor_tags]
  | bool b => simp [has_cbor_tags]
  | int n => simp [has_cbor_tags]
  | float f => simp [has_cbor_tags]
  | str s => simp [has_cbor_tags]
  | bytes bs => simp [has_cbor_tags]
  | datetime d => simp [has_cbor_tags]
  | date o => simp [has_cbor_tags]

theorem hctPairs_path (es : List (PyVal × PyVal)) (path : String) :
    ∀ s ∈ hctPairs es path, ∃ r, s = path ++ r := by
  cases es with
  | nil => simp [hctPairs]
  | cons kv rest =>
    obtain ⟨k, v⟩ := kv
    intro s hs
    simp only [hctPairs, List.mem_append] at hs
    rcases hs with (hk | hv) | hr
    · obtain ⟨r, rfl⟩ := hct_path k (path ++ ".key[" ++ pyRepr k ++ "]") s hk
      exact ⟨".key[" ++ pyRepr k ++ "]" ++ r, by simp [String.append_assoc]⟩
    · obtain ⟨r, rfl⟩ := hct_path v (path ++ "[" ++ pyRepr k ++ "]") s hv
      exact ⟨"[" ++ pyRepr k ++ "]" ++ r, by simp [String.append_assoc]⟩
    · exact hctPairs_path rest path s hr

theorem hctSeq_path (xs : List PyVal) (path : String) (i : Nat) :
    ∀ s ∈ hctSeq xs path i, ∃ r, s = path ++ r := by
  cases xs with
  | nil => simp [hctSeq]
  | cons x rest =>
    intro s hs
    simp only [hctSeq, List.mem_append] at hs
    rcases hs with hx | hr
    · obtain ⟨r, rfl⟩ := hct_path x (path ++ "[" ++ toString i ++ "]") s hx
      exact ⟨"[" ++ toString i ++ "]" ++ r, by simp [String.append_assoc]⟩
    · exact hctSeq_path rest path (i + 1) s hr

theorem hctSet_path (xs : List PyVal) (path : String) (i : Nat) :
    ∀ s ∈ hctSet xs path i, ∃ r, s = path ++ r := by
  cases xs with
  | nil => simp [hctSet]
  | cons x rest =>
    intro s hs
    simp only [hctSet, List.mem_append] at hs
    rcases hs with hx | hr
    · obtain ⟨r, rfl⟩ := hct_path x (path ++ ".set[" ++ toString i ++ "]") s hx
      exact ⟨".set[" ++ toString i ++ "]" ++ r, by simp [String.append_assoc]⟩
    · exact hctSet_path rest path (i + 1) s hr

end

theorem pjcItems_mem :
    ∀ {xs : List PyVal} {items : List String}, pjcItems xs = .ok items →
      ∀ {x : PyVal}, x ∈ xs → ∃ t, python_to_js_code x = .ok t ∧ t ∈ items := by
  intro xs
  induction xs with
  | nil => intro items h x hx; simp at hx
  | cons y rest ih =>
    intro items h x hx
    simp only [pjcItems] at h
    cases hy : python_to_js_code y with
    | error e => rw [hy] at h; exact absurd h (by simp)
    | ok s =>
      rw [hy] at h
      cases hrest : pjcItems rest with
      | error e => rw [hrest] at h; exact absurd h (by simp)
      | ok its =>
        rw [hrest] at h
        obtain rfl : s :: its = items := by simpa using h
        rcases List.mem_cons.mp hx with rfl | hx2
        · exact ⟨s, hy, List.mem_cons_self s its⟩
        · obtain ⟨t, ht, hmem⟩ := ih hrest hx2
          exact ⟨t, ht, List.mem_cons_of_mem s hmem⟩

theorem pjcObjEntries_mem :
    ∀ {es : List (PyVal × PyVal)} {items : List String}, pjcObjEntries es = .ok items →
      ∀ {k v : PyVal}, (k, v) ∈ es →
        ∃ t, python_to_js_code v = .ok t ∧ ("\x22" ++ pyStr k ++ "\x22: " ++ t) ∈ items := by
  intro es
  induction es with
  | nil => intro items h k v hkv; simp at hkv
  | cons kv2 rest ih =>
    obtain ⟨k2, v2⟩ := kv2
    intro items h k v hkv
    simp only [pjcObjEntries] at h
    cases hv2 : python_to_js_code v2 with
    | error e => rw [hv2] at h; exact absurd h (by simp)
    | ok s =>
      rw [hv2] at h
      cases hrest : pjcObjEntries rest with
      | error e => rw [hrest] at h; exact absurd h (by simp)
      | ok its =>
        rw [hrest] at h
        obtain rfl : ("\x22" ++ pyStr k2 ++ "\x22: " ++ s) :: its = items := by simpa using h
        rcases List.mem_cons.mp hkv with heq | hkv2
        · injection heq with h1 h2
          subst h1; subst h2
          exact ⟨s, hv2, List.mem_cons_self _ _⟩
        · obtain ⟨t, ht, hmem⟩ := ih hrest hkv2
          exact ⟨t, ht, List.mem_cons_of_mem _ hmem⟩

theorem pjcMapEntries_mem :
    ∀ {es : List (PyVal × PyVal)} {items : List String}, pjcMapEntries es = .ok items →
      ∀ {k v : PyVal}, (k, v) ∈ es →
        ∃ kt vt, python_to_js_code k = .ok kt ∧ python_to_js_code v = .ok vt ∧
          ("[" ++ kt ++ ", " ++ vt ++ "]") ∈ items := by
  intro es
  induction es with
  | nil => intro items h k v hkv; simp at hkv
  | cons kv2 rest ih =>
    obtain ⟨k2, v2⟩ := kv2
    intro items h k v hkv
    simp only [pjcMapEntries] at h
    cases hk2 : python_to_js_code k2 with
    | error e => rw [hk2] at h; exact absurd h (by simp)
    | ok ks =>
      rw [hk2] at h
      cases hv2 : python_to_js_code v2 with
      | error e => rw [hv2] at h; exact absurd h (by simp)
      | ok vs =>
        rw [hv2] at h
        cases hrest : pjcMapEntries rest with
        | error e => rw [hrest] at h; exact absurd h (by simp)
        | ok its =>
          rw [hrest] at h
          obtain rfl : ("[" ++ ks ++ ", " ++ vs ++ "]") :: its = items := by simpa using h
          rcases List.mem_cons.mp hkv with heq | hkv2
          · injection heq with h1 h2
            subst h1; subst h2
            exact ⟨ks, vs, hk2, hv2, List.mem_cons_self _ _⟩
          · obtain ⟨kt, vt, hkt, hvt, hmem⟩ := ih hrest hkv2
            exact ⟨kt, vt, hkt, hvt, List.mem_cons_of_mem _ hmem⟩

theorem occurs_bool_not_str {b : Bool} {s : String} : ¬ OccursIn (.bool b) (.str s) := by
  intro h
  cases h

theorem bool_token_occurs {b : Bool} {w : PyVal} {s : String}
    (hoc : OccursIn (.bool b) w) (hr : python_to_js_code w = .ok s) :
    Seg (if b then "true" else "false") s := by
  induction hoc generalizing s with
  | refl =>
    have hs : s = (if b then "true" else "false") := by
      cases b <;> simpa [python_to_js_code] using hr.symm
    subst hs
    exact seg_self _
  | @listMem x xs hx hmem ih =>
    simp only [python_to_js_code] at hr
    cases hits : pjcItems xs with
    | error e => rw [hits] at hr; exact absurd hr (by simp)
    | ok items =>
      rw [hits] at hr
      obtain rfl : "[" ++ joinSep ", " items ++ "]" = s := by simpa using hr
      obtain ⟨t, ht, hmem2⟩ := pjcItems_mem hits hmem
      exact seg_right "]" (seg_left "[" (seg_trans (ih ht) (seg_join ", " t items hmem2)))
  | @setMem x xs hx hmem ih =>
    simp only [python_to_js_code] at hr
    cases hits : pjcItems xs with
    | error e => rw [hits] at hr; exact absurd hr (by simp)
    | ok items =>
      rw [hits] at hr
      obtain rfl : "new Set([" ++ joinSep ", " items ++ "])" = s := by simpa using hr
      obtain ⟨t, ht, hmem2⟩ := pjcItems_mem hits hmem
      exact seg_right "])" (seg_left "new Set([" (seg_trans (ih ht) (seg_join ", " t items hmem2)))
  | @dictVal k w es hw hmem ih =>
    simp only [python_to_js_code] at hr
    by_cases hall : es.all (fun kv => isStrVal kv.1) = true
    · rw [if_pos hall] at hr
      cases hits : pjcObjEntries es with
      | error e => rw [hits] at hr; exact absurd hr (by simp)
      | ok items =>
        rw [hits] at hr
        obtain rfl : "\x7b" ++ joinSep ", " items ++ "\x7d" = s := by simpa using hr
        obtain ⟨t, ht, hmem2⟩ := pjcObjEntries_mem hits hmem
        refine seg_right "\x7d" (seg_left "\x7b" (seg_trans ?_ (seg_join ", " _ items hmem2)))
        exact seg_left ("\x22" ++ pyStr k ++ "\x22: ") (ih ht)
    · rw [if_neg hall] at hr
      cases hits : pjcMapEntries es with
      | error e => rw [hits] at hr; exact absurd hr (by simp)
      | ok items =>
        rw [hits] at hr
        obtain rfl : "new Map([" ++ joinSep ", " items ++ "])" = s := by simpa using hr
        obtain ⟨kt, vt, hkt, hvt, hmem2⟩ := pjcMapEntries_mem hits hmem
        refine seg_right "])" (seg_left "new Map([" (seg_trans ?_ (seg_join ", " _ items hmem2)))
        exact seg_right "]" (seg_left ("[" ++ kt ++ ", ") (ih hvt))
  | @dictKey k w es hk hmem ih =>
    simp only [python_to_js_code] at hr
    by_cases hall : es.all (fun kv => isStrVal kv.1) = true
    · have hstr : isStrVal k = true := by
        have := List.all_eq_true.mp hall (k, w) hmem
        simpa using this
      cases k with
      | str σ => exact absurd hk occurs_bool_not_str
      | none => simp [isStrVal] at hstr
      | bool b2 => simp [isStrVal] at hstr
      | int n => simp [isStrVal] at hstr
      | float f => simp [isStrVal] at hstr
      | bytes bs => simp [isStrVal] at hstr
      | list xs => simp [isStrVal] at hstr
      | tuple xs => simp [isStrVal] at hstr
      | set xs => simp [isStrVal] at hstr
      | dict es2 => simp [isStrVal] at hstr
      | datetime d => simp [isStrVal] at hstr
      | date o => simp [isStrVal] at hstr
      | tag t2 v2 => simp [isStrVal] at hstr
    · rw [if_neg hall] at hr
      cases hits : pjcMapEntries es with
      | error e => rw [hits] at hr; exact absurd hr (by simp)
      | ok items =>
        rw [hits] at hr
        obtain rfl : "new Map([" ++ joinSep ", " items ++ "])" = s := by simpa using hr
        obtain ⟨kt, vt, hkt, hvt, hmem2⟩ := pjcMapEntries_mem hits hmem
        refine seg_right "])" (seg_left "new Map([" (seg_trans ?_ (seg_join ", " _ items hmem2)))
        have h0 := seg_right (", " ++ vt ++ "]") (seg_left "[" (ih hkt))
        simpa [String.append_assoc] using h0

/-- Environment used by the C1 analysis: the foreign encode returns
bytes, cbor2 decodes them to the integer 42, re-encode succeeds, and
the foreign decode-and-compare run reports values_match. -/
def roundtripEnvC1 : RoundtripEnv :=
  ⟨fun _ => ⟨0, [24, 42], ""⟩, fun _ => .ok (.int 42),
   fun _ => .ok [24, 42], fun _ _ => ⟨0, "values_match", ""⟩⟩

/-- C1, counterexample.  The claim says the supplied custom predicate
determines the value-comparison verdict of the case.  Here the custom
predicate rejects every pair (it is constantly False) and the declared
intermediate (7) differs from the decoded value (42), yet the case
passes because the verdict is produced by the foreign-runtime
comparison of stage four; test_roundtrip_js never invokes the
predicate. -/
theorem claim1_counterexample :
    test_roundtrip_js roundtripEnvC1 "custom" "42" (.int 7)
      (some (fun _ _ => false)) = true := by
  simp only [roundtripEnvC1, test_roundtrip_js, test_roundtrip_js_body,
    encode_js_code_with_cbor_x, decode_and_verify_js_roundtrip, has_cbor_tags]
  rfl

/-- C1, amended.  When a custom comparator is supplied to
test_roundtrip_js the intermediate canonical-value check is skipped,
and the supplied predicate is never invoked: the verdict is entirely
independent of both the declared intermediate value and the predicate,
being determined by the remaining stages alone. -/
theorem claim1_custom_comparator_ignored (env : RoundtripEnv) (test_name js : String)
    (p1 p2 : PyVal) (f g : PyVal → PyVal → Bool) :
    test_roundtrip_js env test_name js p1 (some f) =
      test_roundtrip_js env test_name js p2 (some g) := by
  simp only [test_roundtrip_js, test_roundtrip_js_body, Option.isNone_some, Bool.false_and]

/-- C1, witness: a concrete instance of the amended theorem. -/
theorem claim1_witness :
    test_roundtrip_js roundtripEnvC1 "custom" "42" (.int 7) (some (fun _ _ => false)) =
      test_roundtrip_js roundtripEnvC1 "custom" "42" (.int 42) (some (fun _ _ => true)) :=
  claim1_custom_comparator_ignored roundtripEnvC1 "custom" "42" (.int 7) (.int 42) _ _

/-- Environment used by the C2 analysis: the foreign encode returns the
half-precision NaN bytes, cbor2 decodes them to a float NaN, re-encode
succeeds, and the foreign decode-and-compare run reports values_match,
so the intermediate check is the only stage that can fail. -/
def roundtripEnvC2 : RoundtripEnv :=
  ⟨fun _ => ⟨0, [249, 126, 0], ""⟩, fun _ => .ok (.float .nan),
   fun _ => .ok [249, 126, 0], fun _ _ => ⟨0, "values_match", ""⟩⟩

/-- C2, counterexample.  The claim says the default comparator of the
intermediate check treats NaN as equal to NaN, so a NaN case does not
fail there.  With every other stage passing, the NaN case without a
custom comparator fails (first conjunct); supplying any custom
comparator, which merely skips the check, makes the same case pass
(second conjunct): the failure is exactly the intermediate mismatch on
NaN. -/
theorem claim2_counterexample :
    test_roundtrip_js roundtripEnvC2 "NaN" "NaN" (.float .nan) Option.none = false ∧
    test_roundtrip_js roundtripEnvC2 "NaN" "NaN" (.float .nan)
      (some (fun _ _ => true)) = true := by
  constructor
  · simp only [roundtripEnvC2, test_roundtrip_js, test_roundtrip_js_body,
      encode_js_code_with_cbor_x, decode_and_verify_js_roundtrip, has_cbor_tags]
    simp [pyNe, pyEq, floatEqF]
  · simp only [roundtripEnvC2, test_roundtrip_js, test_roundtrip_js_body,
      encode_js_code_with_cbor_x, decode_and_verify_js_roundtrip, has_cbor_tags]
    rfl

/-- C2, amended.  The intermediate check of test_roundtrip_js uses
plain Python structural inequality, under which float NaN is unequal to
float NaN; hence every case without a custom comparator whose expected
value and decoded intermediate are both NaN fails with an intermediate
mismatch.  The cross-runtime comparator of stage four (the JavaScript
deepEqual) does treat NaN as equal to NaN, but it never runs for such a
case. -/
theorem claim2_nan_default_comparator_fails (env : RoundtripEnv) (test_name js : String)
    (enc : List Nat)
    (h1 : encode_js_code_with_cbor_x env.encodeRun js = .ok enc)
    (h2 : env.loads enc = .ok (.float .nan)) :
    test_roundtrip_js env test_name js (.float .nan) Option.none = false := by
  simp only [test_roundtrip_js, test_roundtrip_js_body, h1, h2]
  simp [has_cbor_tags, pyNe, pyEq, floatEqF]

/-- C2, witness: the amended theorem applied to the concrete NaN
environment. -/
theorem claim2_witness :
    test_roundtrip_js roundtripEnvC2 "NaN" "NaN" (.float .nan) Option.none = false :=
  claim2_nan_default_comparator_fails roundtripEnvC2 "NaN" "NaN" [249, 126, 0] rfl rfl

/-- C3.  The tag leakage verifier has_cbor_tags returns a non-empty
finding list exactly when the scanned value contains a CBORTag at some
depth; it reports one finding per CBORTag at a reportable position,
independent of the tag number (the count is walkTagCount, which counts
a tag node regardless of its tag slot, so tag 64 counts like any
other); and every finding string extends the root path it was given,
describing the location of the tag. -/
theorem claim3_tag_scan_characterization (obj : PyVal) (path : String) :
    (has_cbor_tags obj path ≠ [] ↔ containsTag obj = true) ∧
    (has_cbor_tags obj path).length = walkTagCount obj ∧
    (∀ s ∈ has_cbor_tags obj path, ∃ r, s = path ++ r) :=
  ⟨hct_ne obj path, hct_len obj path, hct_path obj path⟩

/-- C3, witness: the characterization applied to a deliberately
constructed value carrying the unrecognized tag number 99, the scenario
of test_cbor_tag_verification. -/
theorem claim3_witness :
    (has_cbor_tags (.tag (.int 99) (.int 5)) "root" ≠ [] ↔
      containsTag (.tag (.int 99) (.int 5)) = true) ∧
    (has_cbor_tags (.tag (.int 99) (.int 5)) "root").length =
      walkTagCount (.tag (.int 99) (.int 5)) ∧
    (∃ r, "root: CBORTag(99, 5)" = "root" ++ r) :=
  ⟨(claim3_tag_scan_characterization (.tag (.int 99) (.int 5)) "root").1,
   (claim3_tag_scan_characterization (.tag (.int 99) (.int 5)) "root").2.1,
   (claim3_tag_scan_characterization (.tag (.int 99) (.int 5)) "root").2.2
     "root: CBORTag(99, 5)"
     (by simp only [has_cbor_tags, List.mem_singleton]; rfl)⟩

/-- C4.  Decoding a CBOR tag-64 wrapper around a byte string with the
tag-64-aware loader yields exactly those bytes: tag_hook unwraps the
Tagged(64, b) pair to the plain bytes, the loader therefore produces
the plain bytes with no Tagged wrapper, and the tag leakage verifier
reports zero findings on the result. -/
theorem claim4_tag64_unwraps_to_bytes (raw : List Nat → Except String PyVal)
    (data bs : List Nat) (h : raw data = .ok (.tag (.int 64) (.bytes bs))) :
    tag_hook (.int 64) (.bytes bs) = .ok (.bytes bs) ∧
    cbor_loads_with_tag64_support raw data = .ok (.bytes bs) ∧
    has_cbor_tags (.bytes bs) "root" = [] := by
  have h64 : pyEq (.int 64) (.int 64) = true := by simp [pyEq]
  refine ⟨by simp [tag_hook, h64], ?_, by simp [has_cbor_tags]⟩
  simp only [cbor_loads_with_tag64_support, h]
  simp [applyTagHook, tag_hook, h64]

/-- C4, witness: the theorem applied to the tag-64 wrapper around the
bytes of the string hello, the payload of test_uint8array_with_tag64_support. -/
theorem claim4_witness :
    tag_hook (.int 64) (.bytes [104, 101, 108, 108, 111]) =
      .ok (.bytes [104, 101, 108, 108, 111]) ∧
    cbor_loads_with_tag64_support
        (fun _ => .ok (.tag (.int 64) (.bytes [104, 101, 108, 108, 111]))) [0] =
      .ok (.bytes [104, 101, 108, 108, 111]) ∧
    has_cbor_tags (.bytes [104, 101, 108, 108, 111]) "root" = [] :=
  claim4_tag64_unwraps_to_bytes
    (fun _ => .ok (.tag (.int 64) (.bytes [104, 101, 108, 108, 111])))
    [0] [104, 101, 108, 108, 111] rfl

/-- C5.  When the tag scan on the reference-decoded intermediate finds
anything, test_roundtrip_js returns False at once, whatever the
declared intermediate and whether or not a custom comparator was
supplied; and the later stages never execute: the verdict is False for
every choice of the re-encode and foreign-compare collaborators, which
is why the statement quantifies over two arbitrary instantiations of
them and concludes for both. -/
theorem claim5_tag_leakage_aborts_case (ep : String → NodeRunBytes)
    (ld : List Nat → Except String PyVal) (d1 d2 : PyVal → Except String (List Nat))
    (r1 r2 : List Nat → String → NodeRun) (test_name js : String) (inter : PyVal)
    (cf : Option (PyVal → PyVal → Bool)) (enc : List Nat) (dec : PyVal)
    (h1 : encode_js_code_with_cbor_x ep js = .ok enc)
    (h2 : ld enc = .ok dec)
    (h3 : has_cbor_tags dec "root" ≠ []) :
    test_roundtrip_js ⟨ep, ld, d1, r1⟩ test_name js inter cf = false ∧
    test_roundtrip_js ⟨ep, ld, d2, r2⟩ test_name js inter cf = false := by
  constructor <;>
  · simp only [test_roundtrip_js, test_roundtrip_js_body, h1, h2]
    simp [h3]

/-- C5, witness: a decoded intermediate carrying CBORTag(7, 1) makes
the case fail both under a collaborator pair that would report a match
and under one that would report a mismatch. -/
theorem claim5_witness :
    test_roundtrip_js
        ⟨fun _ => ⟨0, [199], ""⟩, fun _ => .ok (.tag (.int 7) (.int 1)),
         fun _ => .ok [], fun _ _ => ⟨0, "values_match", ""⟩⟩
        "tagleak" "x" (.int 1) Option.none = false ∧
    test_roundtrip_js
        ⟨fun _ => ⟨0, [199], ""⟩, fun _ => .ok (.tag (.int 7) (.int 1)),
         fun _ => .ok [1], fun _ _ => ⟨0, "values_differ", ""⟩⟩
        "tagleak" "x" (.int 1) Option.none = false :=
  claim5_tag_leakage_aborts_case (fun _ => ⟨0, [199], ""⟩)
    (fun _ => .ok (.tag (.int 7) (.int 1))) (fun _ => .ok []) (fun _ => .ok [1])
    (fun _ _ => ⟨0, "values_match", ""⟩) (fun _ _ => ⟨0, "values_differ", ""⟩)
    "tagleak" "x" (.int 1) Option.none [199] (.tag (.int 7) (.int 1))
    rfl rfl (by simp [has_cbor_tags])

/-- C6, counterexample.  The claim says compare_dates normalizes the
timezone-aware member of a mixed pair to its naive UTC wall-clock form
before differencing.  Take a naive datetime reading 12:00 and an aware
datetime reading 12:00 at offset +02:00 (so 10:00 UTC, modelled as wall
0 with utcoffset 7200 seconds): under the claimed UTC normalization the
pair differs by two hours and must compare not-equal, as
compare_dates_spec computes; the source instead calls replace with
tzinfo None, which keeps the wall-clock reading, so compare_dates
returns True. -/
theorem claim6_counterexample :
    compare_dates (.datetime ⟨0, Option.none⟩) (.datetime ⟨0, some 7200000000⟩) = true ∧
    compare_dates_spec ⟨0, Option.none⟩ ⟨0, some 7200000000⟩ = false := by
  constructor
  · simp [compare_dates, dtSubMicros]
  · simp [compare_dates_spec, dtSubMicros]

/-- C6, amended.  For every pair of datetimes, compare_dates first
strips the tzinfo from the timezone-aware member when the other member
is naive, keeping its wall-clock reading unchanged (no UTC conversion),
and then returns True exactly when the absolute difference of the
resulting pair is strictly below 1.0 second: the wall-clock difference
when either member is naive, the instant difference when both are
aware.  Pairs differing by 1.0 second or more compare not-equal. -/
theorem claim6_compare_dates_threshold (o r : PyDatetime) :
    compare_dates (.datetime o) (.datetime r) = true ↔
      (dtNormDiff o r).natAbs < 1000000 := by
  obtain ⟨ow, ot⟩ := o
  obtain ⟨rw, rt⟩ := r
  cases ot <;> cases rt <;> simp [compare_dates, dtSubMicros, dtNormDiff]

/-- C6, witness: the amended theorem applied to a naive pair half a
second apart. -/
theorem claim6_witness :
    compare_dates (.datetime ⟨0, Option.none⟩) (.datetime ⟨500000, Option.none⟩) = true ↔
      (dtNormDiff ⟨0, Option.none⟩ ⟨500000, Option.none⟩).natAbs < 1000000 :=
  claim6_compare_dates_threshold ⟨0, Option.none⟩ ⟨500000, Option.none⟩

/-- C7.  decode_and_verify_js_roundtrip returns True exactly when the
foreign process exits zero and its stripped output token is
values_match, returns False exactly when it exits zero with token
values_differ, and raises RuntimeError in every remaining situation:
a nonzero exit, or any other output token. -/
theorem claim7_decode_verdict_characterization (run : List Nat → String → NodeRun)
    (data : List Nat) (code : String) :
    (decode_and_verify_js_roundtrip run data code = .ok true ↔
      (run data code).returncode = 0 ∧ pyStrip (run data code).stdoutText = "values_match") ∧
    (decode_and_verify_js_roundtrip run data code = .ok false ↔
      (run data code).returncode = 0 ∧ pyStrip (run data code).stdoutText = "values_differ") ∧
    ((∃ e, decode_and_verify_js_roundtrip run data code = .error e) ↔
      (run data code).returncode ≠ 0 ∨
        (pyStrip (run data code).stdoutText ≠ "values_match" ∧
         pyStrip (run data code).stdoutText ≠ "values_differ")) := by
  by_cases h0 : (run data code).returncode = 0
  · by_cases h1 : pyStrip (run data code).stdoutText = "values_match"
    · simp [decode_and_verify_js_roundtrip, h0, h1]
    · by_cases h2 : pyStrip (run data code).stdoutText = "values_differ"
      · simp [decode_and_verify_js_roundtrip, h0, h1, h2]
      · simp [decode_and_verify_js_roundtrip, h0, h1, h2]
  · simp [decode_and_verify_js_roundtrip, h0]

/-- C7, witness: a zero-exit run writing values_match yields True, by
the first component of the characterization. -/
theorem claim7_witness :
    decode_and_verify_js_roundtrip (fun _ _ => ⟨0, "values_match", ""⟩) [1] "x" = .ok true :=
  ((claim7_decode_verdict_characterization (fun _ _ => ⟨0, "values_match", ""⟩) [1] "x").1).mpr
    ⟨rfl, rfl⟩

/-- C8.  test_roundtrip_js never propagates an exception: its verdict
is the value of the try-block body when that body completes, and is the
False verdict when the body raises (the error value), so every
exception inside the case is absorbed into a per-case failure and a run
over the whole registry cannot be aborted by one case. -/
theorem claim8_exceptions_become_fail_verdict (env : RoundtripEnv)
    (test_name js : String) (inter : PyVal) (cf : Option (PyVal → PyVal → Bool)) :
    test_roundtrip_js_body env js inter cf =
        .ok (test_roundtrip_js env test_name js inter cf) ∨
      ∃ e, test_roundtrip_js_body env js inter cf = .error e ∧
        test_roundtrip_js env test_name js inter cf = false := by
  cases h : test_roundtrip_js_body env js inter cf with
  | ok b => left; simp [test_roundtrip_js, h]
  | error e => right; exact ⟨e, rfl, by simp [test_roundtrip_js, h]⟩

/-- Environment used by the C8 witness: the foreign encode subprocess
exits nonzero, so the body raises RuntimeError at the first stage. -/
def roundtripEnvC8 : RoundtripEnv :=
  ⟨fun _ => ⟨1, [], "boom"⟩, fun _ => .ok .none,
   fun _ => .ok [], fun _ _ => ⟨0, "values_match", ""⟩⟩

/-- C8, witness: the theorem applied to an environment whose encode
step raises. -/
theorem claim8_witness :
    test_roundtrip_js_body roundtripEnvC8 "y" .none Option.none =
        .ok (test_roundtrip_js roundtripEnvC8 "x" "y" .none Option.none) ∨
      ∃ e, test_roundtrip_js_body roundtripEnvC8 "y" .none Option.none = .error e ∧
        test_roundtrip_js roundtripEnvC8 "x" "y" .none Option.none = false :=
  claim8_exceptions_become_fail_verdict roundtripEnvC8 "x" "y" .none Option.none

/-- C9.  For every decoded tag whose integer tag number n is not 64,
tag_hook returns a CBORTag whose tag slot holds the entire incoming
CBORTag object rather than the integer n: the result is
CBORTag(CBORTag(n, v), v), and in particular it is not the
CBORTag(n, v) that would preserve the integer tag number, so the
integer tag number of an unrecognized tag does not survive as an
integer in the canonical value the tag-64-aware loader produces. -/
theorem claim9_tag_hook_wraps_tag_object (n : Int) (v : PyVal) (h : n ≠ 64) :
    tag_hook (.int n) v = .ok (.tag (.tag (.int n) v) v) ∧
    tag_hook (.int n) v ≠ .ok (.tag (.int n) v) := by
  have hpy : pyEq (.int n) (.int 64) = false := by
    simp only [pyEq]
    exact beq_eq_false_iff_ne.mpr h
  refine ⟨by simp [tag_hook, hpy], by simp [tag_hook, hpy]⟩

/-- C9, witness: the theorem applied to the unrecognized tag number 99
used by test_cbor_tag_verification. -/
theorem claim9_witness :
    tag_hook (.int 99) (.str "custom_tag_value") =
      .ok (.tag (.tag (.int 99) (.str "custom_tag_value")) (.str "custom_tag_value")) ∧
    tag_hook (.int 99) (.str "custom_tag_value") ≠
      .ok (.tag (.int 99) (.str "custom_tag_value")) :=
  claim9_tag_hook_wraps_tag_object 99 (.str "custom_tag_value") (by decide)

/-- C10.  python_to_js_code renders the Python booleans as the
JavaScript literals true and false (the bool isinstance test of the
source precedes the int test, so a bool never reaches the numeric arm
that would print 1 or 0), and whenever a boolean occurs nested inside
lists, sets or dicts of a successfully translated value, that exact
literal appears in the generated code. -/
theorem claim10_bools_render_as_js_literals :
    (∀ b : Bool, python_to_js_code (.bool b) = .ok (if b then "true" else "false")) ∧
    (∀ (b : Bool) (w : PyVal) (s : String), OccursIn (.bool b) w →
      python_to_js_code w = .ok s → Seg (if b then "true" else "false") s) :=
  ⟨fun b => by cases b <;> simp [python_to_js_code],
   fun _ _ _ hoc hr => bool_token_occurs hoc hr⟩

/-- C10, witness: True inside a singleton list renders inside the
translated array literal as the token true. -/
theorem claim10_witness : Seg "true" "[true]" :=
  claim10_bools_render_as_js_literals.2 true (.list [.bool true]) "[true]"
    (OccursIn.listMem (OccursIn.refl (.bool true)) (List.mem_singleton.mpr rfl))
    (by simp only [python_to_js_code, pjcItems, joinSep]; rfl)
